import Mathlib

attribute [local semireducible] Rat.mul Rat.inv Rat.add Rat.sub Rat.ofScientific

/-!
Verification development for the `excel_modifier` package: a shallow
embedding of `src/excel_modifier/__init__.py` (class `ExcelModifier`) and
proofs about its bound calculation, majority detection, cell
classification, instruction parsing, column selection and directive
emission.

Modelling conventions:
* a numeric pandas cell is `Option ℚ`; `none` models NaN / a missing value,
  and every ordering comparison involving `none` is false, as IEEE
  comparisons with NaN are in Python;
* a `worksheet.write(row, col, value, fmt)` call is a `Directive` value;
  the functions below return the list of directives in emission order;
* Python exceptions (`ValueError` from `float`/`int`, `IndexError` from the
  token lookahead, `KeyError` from reading an absent dict key) are the
  error side of `Except`.  An `Except.error` result means the call raised
  before reaching the per-sheet write loop, so the sink received nothing.
-/

/-- A cell of a numeric column: a rational number, or `none` for NaN. -/
abbrev Cell := Option ℚ

/-- Python `a > b` on floats where either side may be NaN (`none`):
any comparison involving NaN is false. -/
def cGt : Cell → Cell → Bool
  | some a, some b => decide (b < a)
  | _, _ => false

/-- Python `a >= b` on possibly-NaN floats. -/
def cGe : Cell → Cell → Bool
  | some a, some b => decide (b ≤ a)
  | _, _ => false

/-- Python `a < b` on possibly-NaN floats. -/
def cLt : Cell → Cell → Bool
  | some a, some b => decide (a < b)
  | _, _ => false

/-- Python `a <= b` on possibly-NaN floats. -/
def cLe : Cell → Cell → Bool
  | some a, some b => decide (a ≤ b)
  | _, _ => false

/-- Python `a == b` on possibly-NaN floats: NaN is equal to nothing. -/
def cEq : Cell → Cell → Bool
  | some a, some b => decide (a = b)
  | _, _ => false

/-- Data held by one dataframe column: a numeric-dtype column carries its
cells; the entries of a non-numeric column are never read by the formatter
(such a column is never selected), so they are not represented. -/
inductive ColData where
  | num (vals : List Cell)
  | other
  deriving DecidableEq

/-- A named dataframe column. -/
structure Column where
  name : String
  data : ColData
  deriving DecidableEq

/-- Embedding of `pandas.api.types.is_numeric_dtype` on a column. -/
def Column.is_numeric_dtype (c : Column) : Bool :=
  match c.data with
  | .num _ => true
  | .other => false

/-- A dataframe: `nRows` is `sheet_data.shape[0]`; columns are ordered. -/
structure Sheet where
  nRows : ℕ
  cols : List Column
  deriving DecidableEq

/-- The cells of the column at position `i` (`sheet_data[name_i]`). -/
def Sheet.series (s : Sheet) (i : ℕ) : List Cell :=
  match (s.cols.getD i ⟨"", ColData.other⟩).data with
  | .num vals => vals
  | .other => []

/-- Positional cell access `sheet_data.iat[r, c]`. -/
def Sheet.iat (s : Sheet) (r c : ℕ) : Cell :=
  (s.series c).getD r none

/-- Embedding of `ExcelModifier._get_indices_to_edit`: the positions whose
column name is in `columns` and whose dtype is numeric.  The `multi_index`
argument is accepted, as in the source, but never read. -/
def get_indices_to_edit (sheet_data : Sheet) (columns : List String)
    (multi_index : Bool) : List ℕ :=
  let list_of_columns := sheet_data.cols.map Column.name
  (List.range list_of_columns.length).filter
    (fun i => columns.contains (list_of_columns.getD i "") &&
      (sheet_data.cols.getD i ⟨"", ColData.other⟩).is_numeric_dtype)

/-- Embedding of `Series.quantile` with the default linear interpolation:
drop NaN, sort ascending, take the virtual index `h = q * (n - 1)` and
interpolate between the adjacent order statistics.  Pandas raises for `q`
outside `[0, 1]` and yields NaN on an all-NaN column; both are `none`. -/
def seriesQuantile (s : List Cell) (q : ℚ) : Cell :=
  if q < 0 ∨ 1 < q then none
  else
    let vals := (s.filterMap id).insertionSort (· ≤ ·)
    if vals.isEmpty then none
    else
      let n := vals.length
      let h : ℚ := q * ((n : ℚ) - 1)
      let i : ℕ := (⌊h⌋).toNat
      let lo := vals.getD i 0
      let hi := vals.getD (min (i + 1) (n - 1)) 0
      some (lo + (h - (i : ℚ)) * (hi - lo))

/-- Embedding of `Series.sort_values`: non-NaN values ascending, NaN last. -/
def sort_values (s : List Cell) : List Cell :=
  (((s.filterMap id).insertionSort (· ≤ ·)).map some) ++
    List.replicate (s.count none) none

/-- Embedding of `ExcelModifier._calculate_bounds`. -/
def calculate_bounds (series : List Cell) (upper_bound lower_bound : ℚ) :
    Cell × Cell :=
  let sorted_series := sort_values series
  let upper_bound_quantile := 1 - upper_bound / 100
  let lower_bound_quantile := lower_bound / 100
  let x := seriesQuantile sorted_series upper_bound_quantile
  let y := seriesQuantile sorted_series lower_bound_quantile
  (x, y)

/-- Embedding of `Series.max`: maximum of the non-NaN entries, NaN if none. -/
def seriesMax (s : List Cell) : Cell := (s.filterMap id).max?

/-- Embedding of `Series.min`: minimum of the non-NaN entries, NaN if none. -/
def seriesMin (s : List Cell) : Cell := (s.filterMap id).min?

/-- Mean of a boolean series, as produced by `(series == scalar).mean()`:
the fraction of true entries, NaN (`none`) on an empty series. -/
def boolSeriesMean (bs : List Bool) : Cell :=
  if bs.isEmpty then none
  else some ((bs.count true : ℚ) / (bs.length : ℚ))

/-- Embedding of `(current_column == extreme).mean() >= ignore_bound_percentage`
from `_colourize_columns`: the comparison is false when the mean is NaN. -/
def majorityExists (current_column : List Cell) (extreme : Cell)
    (ignore_bound_percentage : ℚ) : Bool :=
  match boolSeriesMean (current_column.map (fun v => cEq v extreme)) with
  | none => false
  | some m => decide (ignore_bound_percentage ≤ m)

/-- Kind tag distinguishing the two format objects of one invocation: the
source calls `add_format` twice, so the upper-margin format object and the
lower-margin format object are distinct even when their colours agree. -/
inductive FmtSlot where
  | upperSlot
  | lowerSlot
  deriving DecidableEq

/-- A workbook format object: which `add_format` call created it, and the
configured background colour. -/
structure Fmt where
  slot : FmtSlot
  bgColor : String
  deriving DecidableEq

/-- One `worksheet.write(row, col, value, fmt)` call. -/
structure Directive where
  sheet : String
  row : ℤ
  col : ℤ
  value : Cell
  fmt : Fmt
  deriving DecidableEq

/-- Embedding of the source guard `current_data != 'nan'`: it compares a
float cell to the string `'nan'`, and a float is never equal to a string,
so the test passes for every cell, NaN included. -/
def guardNeNanStr (_current_data : Cell) : Bool := true

/-- Body of the row loop of `_colourize_columns` for one cell: the
directives written for the cell at `(row_pos, column_pos)`, given the
formatting option, the two majority booleans, the column extremes, the
precomputed bound pair and the two format objects. -/
def cellDirectives (sheet_name : String) (formatting_option : String)
    (upperMaj lowerMaj : Bool) (largest smallest : Cell) (bnds : Cell × Cell)
    (upper_colour_format lower_colour_format : Fmt)
    (row_offset column_offset : ℤ) (row_pos column_pos : ℕ)
    (current_data : Cell) : List Directive :=
  if guardNeNanStr current_data then
    (if formatting_option == "colour_upper" || formatting_option == "colour_both" then
      if upperMaj then
        if cGt largest current_data && cGe current_data bnds.1 then
          [⟨sheet_name, row_offset + row_pos, column_offset + column_pos,
            current_data, upper_colour_format⟩]
        else []
      else
        if cGe largest current_data && cGe current_data bnds.1 then
          [⟨sheet_name, row_offset + row_pos, column_offset + column_pos,
            current_data, upper_colour_format⟩]
        else []
    else []) ++
    (if formatting_option == "colour_lower" || formatting_option == "colour_both" then
      if lowerMaj then
        if cLt smallest current_data && cLe current_data bnds.2 then
          [⟨sheet_name, row_offset + row_pos, column_offset + column_pos,
            current_data, lower_colour_format⟩]
        else []
      else
        if cLe smallest current_data && cLe current_data bnds.2 then
          [⟨sheet_name, row_offset + row_pos, column_offset + column_pos,
            current_data, lower_colour_format⟩]
        else []
    else [])
  else []

/-- The `bounds` dict of `_colourize_columns`: built once, before the row
loop, keyed by selected column position. -/
def boundsDict (sheet_data : Sheet) (columns_to_format : List String)
    (multi_index : Bool) (upper_bound lower_bound : ℚ) :
    List (ℕ × (Cell × Cell)) :=
  (get_indices_to_edit sheet_data columns_to_format multi_index).map
    (fun column_index =>
      (column_index,
        calculate_bounds (sheet_data.series column_index) upper_bound lower_bound))

/-- Embedding of `ExcelModifier._colourize_columns`: all directives written
to the sheet, in emission order. -/
def colourize_columns_impl (sheet_name : String) (sheet_data : Sheet)
    (columns_to_format : List String) (formatting_option : String)
    (margin_options : ℚ × ℚ) (colour_options : String × String)
    (majority_percentage : ℚ) (write_offsets : ℤ × ℤ)
    (multi_index : Bool) : List Directive :=
  let upper_bound := margin_options.1
  let lower_bound := margin_options.2
  let upper_colour := colour_options.1
  let lower_colour := colour_options.2
  let upper_colour_format : Fmt :=
    ⟨.upperSlot, if upper_colour == "red" then "#FFC7CE" else "#C6EFCE"⟩
  let lower_colour_format : Fmt :=
    ⟨.lowerSlot, if lower_colour == "red" then "#FFC7CE" else "#C6EFCE"⟩
  let row_offset := write_offsets.1
  let column_offset := write_offsets.2
  let column_indices_to_format := get_indices_to_edit sheet_data columns_to_format multi_index
  let bounds := boundsDict sheet_data columns_to_format multi_index upper_bound lower_bound
  let num_rows := sheet_data.nRows
  column_indices_to_format.flatMap (fun column_pos =>
    let current_column := sheet_data.series column_pos
    let ignore_bound_percentage := majority_percentage / 100
    let largest := seriesMax current_column
    let upper_bound_majority_exists := majorityExists current_column largest ignore_bound_percentage
    let smallest := seriesMin current_column
    let lower_bound_majority_exists := majorityExists current_column smallest ignore_bound_percentage
    (List.range num_rows).flatMap (fun row_pos =>
      cellDirectives sheet_name formatting_option
        upper_bound_majority_exists lower_bound_majority_exists
        largest smallest ((bounds.lookup column_pos).getD (none, none))
        upper_colour_format lower_colour_format row_offset column_offset
        row_pos column_pos (sheet_data.iat row_pos column_pos)))

/-- Value of a digit string. -/
def digitsVal (cs : List Char) : ℕ :=
  cs.foldl (fun a c => 10 * a + (c.toNat - 48)) 0

/-- Embedding of Python `float` on the plain decimal literals of the
instruction mini-language: optional sign, integer digits, optional dot and
fraction digits.  Anything else raises ValueError, modelled as `none`. -/
def pyFloat (s : String) : Option ℚ :=
  let cs := s.toList
  let sgn : ℚ := match cs with
    | '-' :: _ => -1
    | _ => 1
  let body : List Char := match cs with
    | '-' :: t => t
    | '+' :: t => t
    | _ => cs
  let ip := body.takeWhile (fun c => c != '.')
  let rest := body.drop ip.length
  if ip.all Char.isDigit then
    match rest with
    | [] => if ip.isEmpty then none else some (sgn * (digitsVal ip : ℚ))
    | '.' :: fp =>
      if fp.all Char.isDigit && (!ip.isEmpty || !fp.isEmpty) then
        some (sgn * ((digitsVal ip : ℚ) + (digitsVal fp : ℚ) / (10 : ℚ) ^ fp.length))
      else none
    | _ => none
  else none

/-- Embedding of Python `int`: optional sign followed by digits. -/
def pyInt (s : String) : Option ℤ :=
  let cs := s.toList
  let sgn : ℤ := match cs with
    | '-' :: _ => -1
    | _ => 1
  let body : List Char := match cs with
    | '-' :: t => t
    | '+' :: t => t
    | _ => cs
  if body.all Char.isDigit && !body.isEmpty then
    some (sgn * (digitsVal body : ℤ))
  else none

/-- Python substring containment `sub in s`. -/
def pyInStr (sub : String) (s : String) : Bool :=
  s.toList.tails.any (fun t => sub.toList.isPrefixOf t)

/-- The `POSSIBLE_INSTRUCTIONS` constant of `_parse_instructions`. -/
def POSSIBLE_INSTRUCTIONS : String := "MmCcpsoO"

/-- The test `current_elem in POSSIBLE_INSTRUCTIONS` (a substring test). -/
def isInstructionKey (current_elem : String) : Bool :=
  pyInStr current_elem POSSIBLE_INSTRUCTIONS

/-- Python exceptions observable from the embedded code. -/
inductive PyErr where
  | valueError
  | indexError
  | keyError
  deriving DecidableEq

/-- The `params_to_pass` dict built by `_parse_instructions`: one optional
entry per recognized key. -/
structure Params where
  margin_upper : Option ℚ
  margin_lower : Option ℚ
  colour_upper : Option String
  colour_lower : Option String
  majority_percentage : Option ℚ
  formatting_option : Option String
  row_offset : Option ℤ
  column_offset : Option ℤ
  deriving DecidableEq

/-- The empty `params_to_pass` dict. -/
def emptyParams : Params := ⟨none, none, none, none, none, none, none, none⟩

/-- One arm of the `match current_elem` statement of `_parse_instructions`:
how a recognized key consumes the following token.  An invalid mode token
after `s` matches no case and leaves the dict unchanged; an arbitrary token
after `C` or `c` is mapped to green. -/
def applyInstruction (current_elem next_item : String) (p : Params) :
    Except PyErr Params :=
  match current_elem with
  | "M" =>
    match pyFloat next_item with
    | some x => .ok { p with margin_upper := some x }
    | none => .error .valueError
  | "m" =>
    match pyFloat next_item with
    | some x => .ok { p with margin_lower := some x }
    | none => .error .valueError
  | "C" => .ok { p with colour_upper := some (if next_item == "r" then "red" else "green") }
  | "c" => .ok { p with colour_lower := some (if next_item == "r" then "red" else "green") }
  | "p" =>
    match pyFloat next_item with
    | some x => .ok { p with majority_percentage := some x }
    | none => .error .valueError
  | "s" =>
    match next_item with
    | "u" => .ok { p with formatting_option := some "colour_upper" }
    | "l" => .ok { p with formatting_option := some "colour_lower" }
    | "b" => .ok { p with formatting_option := some "colour_both" }
    | _ => .ok p
  | "o" =>
    match pyInt next_item with
    | some x => .ok { p with row_offset := some x }
    | none => .error .valueError
  | "O" =>
    match pyInt next_item with
    | some x => .ok { p with column_offset := some x }
    | none => .error .valueError
  | _ => .ok p

/-- The scanning loop of `_parse_instructions`: every position is examined;
at a key the next token is read (IndexError when there is none) and the
dict updated, then scanning resumes at the next position, value included. -/
def parseInstructionsAux : List String → Params → Except PyErr Params
  | [], params_to_pass => .ok params_to_pass
  | [current_elem], params_to_pass =>
    if isInstructionKey current_elem then .error .indexError
    else .ok params_to_pass
  | current_elem :: next_item :: rest, params_to_pass =>
    if isInstructionKey current_elem then
      match applyInstruction current_elem next_item params_to_pass with
      | .error e => .error e
      | .ok p => parseInstructionsAux (next_item :: rest) p
    else parseInstructionsAux (next_item :: rest) params_to_pass

/-- Worker for whitespace splitting, carrying the current token reversed. -/
def pySplitAux : List Char → List Char → List String
  | [], acc => if acc.isEmpty then [] else [⟨acc.reverse⟩]
  | c :: rest, acc =>
    if c == ' ' then
      if acc.isEmpty then pySplitAux rest []
      else ⟨acc.reverse⟩ :: pySplitAux rest []
    else pySplitAux rest (c :: acc)

/-- Embedding of Python `str.split()` with no argument: split on runs of
whitespace, producing no empty tokens. -/
def pySplit (s : String) : List String := pySplitAux s.toList []

/-- Embedding of `ExcelModifier._parse_instructions`: whitespace-split the
instruction string and scan. -/
def parse_instructions (instructions : String) : Except PyErr Params :=
  parseInstructionsAux (pySplit instructions) emptyParams

/-- Decidable equality of embedded results, for concrete evaluation. -/
instance instDecEqExcept {e a : Type} [DecidableEq e] [DecidableEq a] :
    DecidableEq (Except e a) := fun x y =>
  match x, y with
  | .ok u, .ok v =>
    if h : u = v then isTrue (by rw [h]) else isFalse (by simp [h])
  | .error u, .error v =>
    if h : u = v then isTrue (by rw [h]) else isFalse (by simp [h])
  | .ok _, .error _ => isFalse (by simp)
  | .error _, .ok _ => isFalse (by simp)

/-- A raising dict lookup `parsed_instructions[key]`. -/
def dictLookup {α : Type} (v : Option α) : Except PyErr α :=
  match v with
  | some a => .ok a
  | none => .error .keyError

/-- Embedding of `ExcelModifier.colourize_columns`: parse the instruction
string, read all eight options from the dict (a KeyError here happens
before the sheet loop), then run `_colourize_columns` on each sheet. -/
def colourize_columns (sheets_to_modify : List (String × Sheet))
    (columns : List String) (instructions : String) (multi_index : Bool) :
    Except PyErr (List Directive) := do
  let parsed_instructions ← parse_instructions instructions
  let formatting_option ← dictLookup parsed_instructions.formatting_option
  let margin_upper ← dictLookup parsed_instructions.margin_upper
  let margin_lower ← dictLookup parsed_instructions.margin_lower
  let colour_upper ← dictLookup parsed_instructions.colour_upper
  let colour_lower ← dictLookup parsed_instructions.colour_lower
  let majority_percentage ← dictLookup parsed_instructions.majority_percentage
  let row_offset ← dictLookup parsed_instructions.row_offset
  let column_offset ← dictLookup parsed_instructions.column_offset
  .ok (sheets_to_modify.flatMap (fun sheet =>
    colourize_columns_impl sheet.1 sheet.2 columns formatting_option
      (margin_upper, margin_lower) (colour_upper, colour_lower)
      majority_percentage (row_offset, column_offset) multi_index))

/-- Linear-interpolation quantile as the specification words it: over the
sorted column, at virtual position `q * (n - 1)`; an integral position
picks that order statistic, otherwise the two surrounding order statistics
are combined linearly. -/
def specLinearQuantile (vs : List ℚ) (q : ℚ) : ℚ :=
  let s := vs.insertionSort (· ≤ ·)
  let pos : ℚ := q * ((s.length : ℚ) - 1)
  if ⌈pos⌉ = ⌊pos⌋ then s.getD (⌊pos⌋).toNat 0
  else
    ((⌈pos⌉ : ℚ) - pos) * s.getD (⌊pos⌋).toNat 0 +
      (pos - (⌊pos⌋ : ℚ)) * s.getD (⌈pos⌉).toNat 0

/-- Fixture: a sheet with one numeric column `A` holding 1 and 2. -/
def exSheet : Sheet := ⟨2, [⟨"A", ColData.num [some 1, some 2]⟩]⟩

/-- Fixture: an instruction string that is malformed per the documented
contract, since the token after `C` must be `r` or `g` and here it is `x`;
every other key/value pair is well formed. -/
def badColourInstr : String := "M 0.0 m 0.0 C x c r p 90.0 s b o 0 O 0"

/-- Fixture: the round-trip instruction string of the specification. -/
def exampleInstr : String := "M 5.0 m 10.0 C g c r p 10.0 s b o 1 O 0"

/-- Fixture: the eight key/value pairs of `exampleInstr`. -/
def examplePairs : List (String × String) :=
  [("M", "5.0"), ("m", "10.0"), ("C", "g"), ("c", "r"),
   ("p", "10.0"), ("s", "b"), ("o", "1"), ("O", "0")]

/-- Tokens of a list of key/value pairs, in order. -/
def pairTokens (l : List (String × String)) : List String :=
  l.flatMap (fun pr => [pr.1, pr.2])

/-- Fixture: the configuration record that `exampleInstr` must produce. -/
def exampleParams : Params :=
  ⟨some 5, some 10, some "green", some "red", some 10, some "colour_both",
   some 1, some 0⟩

/-- Total version of one parser step, for folding over key/value pairs:
apply the key's arm, keeping the record unchanged if the arm raises. -/
def stepPair (p : Params) (pr : String × String) : Params :=
  match applyInstruction pr.1 pr.2 p with
  | .ok q => q
  | .error _ => p

/-! Helper lemmas. -/

/-- Any directive produced for one cell is the upper-format directive or the
lower-format directive for that cell, with the cell's own value and the
offset target indices. -/
lemma mem_cellDirectives_eq {d : Directive} {sn fo : String} {uM lM : Bool}
    {L S : Cell} {b : Cell × Cell} {uF lF : Fmt} {ro co : ℤ} {rp cp : ℕ} {v : Cell}
    (h : d ∈ cellDirectives sn fo uM lM L S b uF lF ro co rp cp v) :
    d = ⟨sn, ro + rp, co + cp, v, uF⟩ ∨ d = ⟨sn, ro + rp, co + cp, v, lF⟩ := by
  unfold cellDirectives at h
  simp only [guardNeNanStr, if_true, List.mem_append] at h
  rcases h with h | h <;> [left; right] <;>
  · repeat' split at h
    all_goals simp_all

/-- Directives of one invocation come from a selected column position and a
row position below the row count, via `cellDirectives` with that column's
extremes, majority flags and looked-up bound pair. -/
lemma mem_colourize_impl {d : Directive} {sn fo : String} {sd : Sheet}
    {cols : List String} {mo : ℚ × ℚ} {co : String × String} {mp : ℚ}
    {wo : ℤ × ℤ} {mi : Bool}
    (h : d ∈ colourize_columns_impl sn sd cols fo mo co mp wo mi) :
    ∃ cp ∈ get_indices_to_edit sd cols mi, ∃ rp < sd.nRows,
      d ∈ cellDirectives sn fo
        (majorityExists (sd.series cp) (seriesMax (sd.series cp)) (mp / 100))
        (majorityExists (sd.series cp) (seriesMin (sd.series cp)) (mp / 100))
        (seriesMax (sd.series cp)) (seriesMin (sd.series cp))
        (((boundsDict sd cols mi mo.1 mo.2).lookup cp).getD (none, none))
        ⟨.upperSlot, if co.1 == "red" then "#FFC7CE" else "#C6EFCE"⟩
        ⟨.lowerSlot, if co.2 == "red" then "#FFC7CE" else "#C6EFCE"⟩
        wo.1 wo.2 rp cp (sd.iat rp cp) := by
  unfold colourize_columns_impl at h
  simp only [List.mem_flatMap, List.mem_range] at h
  obtain ⟨cp, hcp, rp, hrp, hd⟩ := h
  exact ⟨cp, hcp, rp, hrp, hd⟩

/-- Looking up a key in an association list built by pairing each key of a
list with a function of it returns that function value. -/
lemma lookup_map_pair (f : ℕ → Cell × Cell) :
    ∀ (l : List ℕ) (c : ℕ), c ∈ l →
      (l.map (fun x => (x, f x))).lookup c = some (f c) := by
  intro l
  induction l with
  | nil => simp
  | cons a t ih =>
    intro c hc
    by_cases h : c = a
    · subst h
      simp [List.lookup]
    · rcases List.mem_cons.mp hc with h' | hc'
      · exact absurd h' h
      · simpa [List.lookup, beq_false_of_ne h] using ih c hc'

/-! Claim theorems. -/

/-- C10: the `multi_index` flag has no effect on behaviour: column
selection, the per-sheet formatting pass and the full colourize operation
produce identical results with the flag true and with it false. -/
theorem c10_multi_index_no_effect (sheet_data : Sheet) (columns : List String)
    (sheet_name formatting_option : String) (margin_options : ℚ × ℚ)
    (colour_options : String × String) (majority_percentage : ℚ)
    (write_offsets : ℤ × ℤ) (sheets_to_modify : List (String × Sheet))
    (instructions : String) :
    get_indices_to_edit sheet_data columns true =
      get_indices_to_edit sheet_data columns false ∧
    colourize_columns_impl sheet_name sheet_data columns formatting_option
        margin_options colour_options majority_percentage write_offsets true =
      colourize_columns_impl sheet_name sheet_data columns formatting_option
        margin_options colour_options majority_percentage write_offsets false ∧
    colourize_columns sheets_to_modify columns instructions true =
      colourize_columns sheets_to_modify columns instructions false :=
  ⟨rfl, rfl, rfl⟩

/-- C4: a missing (NaN) cell of a selected column is never classified and
never written: the row-loop body emits no directive for it, whatever the
formatting mode, margins, colours, majority flags or offsets.  In the
source the guard `current_data != 'nan'` passes for NaN, but every margin
comparison against NaN is false. -/
theorem c4_nan_never_classified (sheet_name formatting_option : String)
    (upperMaj lowerMaj : Bool) (largest smallest : Cell) (bnds : Cell × Cell)
    (uF lF : Fmt) (ro co : ℤ) (rp cp : ℕ) :
    cellDirectives sheet_name formatting_option upperMaj lowerMaj largest
      smallest bnds uF lF ro co rp cp none = [] := by
  unfold cellDirectives
  cases largest <;> cases smallest <;> cases upperMaj <;> cases lowerMaj <;>
    simp [guardNeNanStr, cGt, cGe, cLt, cLe]

/-- C1: for a numeric cell value `v` of a selected column with precomputed
numeric bound pair `(bu, bl)`, column maximum `L` and minimum `S`, and
majority booleans `upperMaj`, `lowerMaj`: the upper-format directive for
the cell is emitted iff the mode includes upper and `bu ≤ v ≤ L`, the
comparison against `L` being strict exactly when the maximum is
majority-flagged; symmetrically the lower-format directive is emitted iff
the mode includes lower and `S ≤ v ≤ bl`, strict against `S` exactly when
the minimum is majority-flagged. -/
theorem c1_cell_classification (sheet_name formatting_option : String)
    (upperMaj lowerMaj : Bool) (L S bu bl v : ℚ) (cu cl : String)
    (ro co : ℤ) (rp cp : ℕ) :
    ((⟨sheet_name, ro + rp, co + cp, some v, ⟨.upperSlot, cu⟩⟩ : Directive) ∈
        cellDirectives sheet_name formatting_option upperMaj lowerMaj
          (some L) (some S) (some bu, some bl) ⟨.upperSlot, cu⟩
          ⟨.lowerSlot, cl⟩ ro co rp cp (some v) ↔
      ((formatting_option = "colour_upper" ∨ formatting_option = "colour_both") ∧
        bu ≤ v ∧ (if upperMaj then v < L else v ≤ L))) ∧
    ((⟨sheet_name, ro + rp, co + cp, some v, ⟨.lowerSlot, cl⟩⟩ : Directive) ∈
        cellDirectives sheet_name formatting_option upperMaj lowerMaj
          (some L) (some S) (some bu, some bl) ⟨.upperSlot, cu⟩
          ⟨.lowerSlot, cl⟩ ro co rp cp (some v) ↔
      ((formatting_option = "colour_lower" ∨ formatting_option = "colour_both") ∧
        v ≤ bl ∧ (if lowerMaj then S < v else S ≤ v))) := by
  unfold cellDirectives
  cases upperMaj <;> cases lowerMaj <;>
    simp [guardNeNanStr, cGt, cGe, cLt, cLe, List.mem_append, and_comm]

/-- C9: every directive of one formatting pass with offsets `(ro, coff)`
originates at a table position `(rp, cp)` with `rp` below the row count and
`cp` a selected column, targets exactly `(ro + rp, coff + cp)`, and carries
the cell value at `(rp, cp)` unchanged. -/
theorem c9_directive_shape (sheet_name formatting_option : String)
    (sheet_data : Sheet) (columns_to_format : List String)
    (margin_options : ℚ × ℚ) (colour_options : String × String)
    (majority_percentage : ℚ) (ro coff : ℤ) (multi_index : Bool)
    (d : Directive)
    (h : d ∈ colourize_columns_impl sheet_name sheet_data columns_to_format
      formatting_option margin_options colour_options majority_percentage
      (ro, coff) multi_index) :
    ∃ rp cp, rp < sheet_data.nRows ∧
      cp ∈ get_indices_to_edit sheet_data columns_to_format multi_index ∧
      d.row = ro + rp ∧ d.col = coff + cp ∧ d.value = sheet_data.iat rp cp := by
  obtain ⟨cp, hcp, rp, hrp, hd⟩ := mem_colourize_impl h
  rcases mem_cellDirectives_eq hd with h' | h' <;> subst h' <;>
    exact ⟨rp, cp, hrp, hcp, rfl, rfl, rfl⟩

/-- C7: a position is selected for formatting iff its column exists, its
name is among the requested columns and its dtype is numeric; and every
directive of a formatting pass writes into a selected column, so absent or
non-numeric requested columns yield no directive (and the pass is total, so
no error either). -/
theorem c7_column_selection (sheet_data : Sheet) (columns : List String)
    (multi_index : Bool) :
    (∀ i, i ∈ get_indices_to_edit sheet_data columns multi_index ↔
      ∃ c, sheet_data.cols[i]? = some c ∧ c.name ∈ columns ∧
        c.is_numeric_dtype = true) ∧
    (∀ (sheet_name formatting_option : String) (margin_options : ℚ × ℚ)
      (colour_options : String × String) (majority_percentage : ℚ)
      (write_offsets : ℤ × ℤ) (d : Directive),
      d ∈ colourize_columns_impl sheet_name sheet_data columns
        formatting_option margin_options colour_options majority_percentage
        write_offsets multi_index →
      ∃ cp ∈ get_indices_to_edit sheet_data columns multi_index,
        d.col = write_offsets.2 + cp) := by
  constructor
  · intro i
    unfold get_indices_to_edit
    simp only [List.mem_filter, List.mem_range, List.length_map,
      Bool.and_eq_true, List.contains, List.elem_iff]
    constructor
    · rintro ⟨hlen, hmem, hnum⟩
      refine ⟨sheet_data.cols.getD i ⟨"", ColData.other⟩, ?_, ?_, hnum⟩
      · rw [List.getD_eq_getElem?_getD, List.getElem?_eq_getElem hlen]
        rfl
      · have : (sheet_data.cols.map Column.name).getD i "" =
            (sheet_data.cols.getD i ⟨"", ColData.other⟩).name := by
          rw [List.getD_eq_getElem?_getD, List.getD_eq_getElem?_getD,
            List.getElem?_map, List.getElem?_eq_getElem hlen]
          rfl
        rwa [this] at hmem
    · rintro ⟨c, hc, hmem, hnum⟩
      have hlen : i < sheet_data.cols.length := by
        by_contra hge
        rw [List.getElem?_eq_none (by omega)] at hc
        exact Option.noConfusion hc
      have hcd : sheet_data.cols.getD i ⟨"", ColData.other⟩ = c := by
        rw [List.getD_eq_getElem?_getD, hc]
        rfl
      refine ⟨hlen, ?_, by rw [hcd]; exact hnum⟩
      have : (sheet_data.cols.map Column.name).getD i "" = c.name := by
        rw [List.getD_eq_getElem?_getD, List.getElem?_map, hc]
        rfl
      rwa [this]
  · intro sheet_name formatting_option margin_options colour_options
      majority_percentage write_offsets d h
    obtain ⟨cp, hcp, rp, _, hd⟩ := mem_colourize_impl h
    rcases mem_cellDirectives_eq hd with h' | h' <;> subst h' <;>
      exact ⟨cp, hcp, rfl⟩

/-- C8: the bound pair of each selected column is computed once, into the
`bounds` dict built before the row loop, and the lookup every row performs
for column `c` yields that one pair, `_calculate_bounds` of column `c`; so
all rows of a column are classified against the same bound pair. -/
theorem c8_bounds_once_per_column (sheet_data : Sheet) (columns : List String)
    (multi_index : Bool) (upper_bound lower_bound : ℚ) (c : ℕ)
    (hc : c ∈ get_indices_to_edit sheet_data columns multi_index) :
    (boundsDict sheet_data columns multi_index upper_bound lower_bound).lookup c =
      some (calculate_bounds (sheet_data.series c) upper_bound lower_bound) := by
  unfold boundsDict
  exact lookup_map_pair _ _ c hc

/-- Maximum of an all-numeric column. -/
lemma seriesMax_map_some (vs : List ℚ) : seriesMax (vs.map some) = vs.max? := by
  simp [seriesMax, List.filterMap_map]

/-- Minimum of an all-numeric column. -/
lemma seriesMin_map_some (vs : List ℚ) : seriesMin (vs.map some) = vs.min? := by
  simp [seriesMin, List.filterMap_map]

/-- Counting the true entries of the elementwise comparison of an
all-numeric column against a numeric scalar counts the occurrences of the
scalar. -/
lemma count_true_cEq (vs : List ℚ) (m : ℚ) :
    ((vs.map some).map (fun v => cEq v (some m))).count true = vs.count m := by
  induction vs with
  | nil => rfl
  | cons a t ih =>
    simp only [List.map_cons, List.count_cons, ih]
    by_cases h : a = m <;> simp [cEq, h]

/-- Majority test on an all-numeric column: the flag is raised iff the
scalar's frequency reaches the threshold. -/
lemma majorityExists_map_some (vs : List ℚ) (m pct : ℚ) (hvs : vs ≠ []) :
    majorityExists (vs.map some) (some m) pct = true ↔
      pct ≤ (vs.count m : ℚ) / (vs.length : ℚ) := by
  have hmean : boolSeriesMean ((vs.map some).map (fun v => cEq v (some m))) =
      some ((vs.count m : ℚ) / (vs.length : ℚ)) := by
    unfold boolSeriesMean
    rw [if_neg (by simp [hvs])]
    rw [count_true_cEq]
    simp
  unfold majorityExists
  rw [hmean]
  simp

/-- C3: for a numeric column, the maximum is majority-flagged iff its
frequency (occurrences over total rows) is at least `p / 100`, and
independently likewise for the minimum; concretely, in `[5, 5, 5, 5, 1]`
with threshold 50 the maximum 5 is flagged (80% ≥ 50%) and the minimum 1 is
not (20% < 50%). -/
theorem c3_majority_detection (vs : List ℚ) (p m mn : ℚ)
    (hm : vs.max? = some m) (hmn : vs.min? = some mn) :
    (majorityExists (vs.map some) (seriesMax (vs.map some)) (p / 100) = true ↔
      p / 100 ≤ (vs.count m : ℚ) / (vs.length : ℚ)) ∧
    (majorityExists (vs.map some) (seriesMin (vs.map some)) (p / 100) = true ↔
      p / 100 ≤ (vs.count mn : ℚ) / (vs.length : ℚ)) ∧
    majorityExists (([5, 5, 5, 5, 1] : List ℚ).map some)
      (seriesMax (([5, 5, 5, 5, 1] : List ℚ).map some)) (50 / 100) = true ∧
    majorityExists (([5, 5, 5, 5, 1] : List ℚ).map some)
      (seriesMin (([5, 5, 5, 5, 1] : List ℚ).map some)) (50 / 100) = false := by
  have hvs : vs ≠ [] := by
    intro h
    subst h
    simp at hm
  refine ⟨?_, ?_, by decide, by decide⟩
  · rw [seriesMax_map_some, hm]
    exact majorityExists_map_some vs m _ hvs
  · rw [seriesMin_map_some, hmn]
    exact majorityExists_map_some vs mn _ hvs

/-- Witness for C3 at the column `[5, 5, 5, 5, 1]` with threshold 50. -/
theorem c3_majority_detection_witness :
    majorityExists (([5, 5, 5, 5, 1] : List ℚ).map some)
      (seriesMax (([5, 5, 5, 5, 1] : List ℚ).map some)) (50 / 100) = true :=
  ((c3_majority_detection [5, 5, 5, 5, 1] 50 5 1 (by decide) (by decide)).1).mpr
    (by decide)

/-- Witness for C9 on the fixture sheet: the first emitted directive of a
concrete pass is located and shaped as stated. -/
theorem c9_directive_shape_witness :
    ∃ rp cp, rp < exSheet.nRows ∧
      cp ∈ get_indices_to_edit exSheet ["A"] false ∧
      (⟨"S", 0, 0, some 1, ⟨.lowerSlot, "#FFC7CE"⟩⟩ : Directive).row = 0 + rp ∧
      (⟨"S", 0, 0, some 1, ⟨.lowerSlot, "#FFC7CE"⟩⟩ : Directive).col = 0 + cp ∧
      (⟨"S", 0, 0, some 1, ⟨.lowerSlot, "#FFC7CE"⟩⟩ : Directive).value = exSheet.iat rp cp :=
  c9_directive_shape "S" "colour_both" exSheet ["A"] (0, 0) ("green", "red")
    90 0 0 false _ (by decide)

/-- Witness for C7 on the fixture sheet: position 0 is selected since
column `A` is present, requested and numeric. -/
theorem c7_column_selection_witness :
    0 ∈ get_indices_to_edit exSheet ["A"] false :=
  ((c7_column_selection exSheet ["A"] false).1 0).mpr
    ⟨⟨"A", ColData.num [some 1, some 2]⟩, by decide, by decide, by decide⟩

/-- Witness for C8 on the fixture sheet: the bounds dict lookup for the one
selected column returns that column's calculated bound pair. -/
theorem c8_bounds_once_per_column_witness :
    (boundsDict exSheet ["A"] false 0 0).lookup 0 =
      some (calculate_bounds (exSheet.series 0) 0 0) :=
  c8_bounds_once_per_column exSheet ["A"] false 0 0 0 (by decide)

/-- Facts about each of the eight example key/value pairs: the key is
recognized, the value is not itself a key, and the parser arm succeeds and
acts as the total step function. -/
lemma examplePairs_facts :
    ∀ pr ∈ examplePairs, isInstructionKey pr.1 = true ∧
      isInstructionKey pr.2 = false ∧
      ∀ p, applyInstruction pr.1 pr.2 p = .ok (stepPair p pr) := by
  intro pr hpr
  fin_cases hpr <;> exact ⟨rfl, rfl, fun p => rfl⟩

/-- Scanning the flattened token list of key/value pairs drawn from the
example pairs folds the step function over the pairs. -/
lemma parseInstructionsAux_pairTokens :
    ∀ (l : List (String × String)), (∀ pr ∈ l, pr ∈ examplePairs) → ∀ p,
      parseInstructionsAux (pairTokens l) p = .ok (l.foldl stepPair p) := by
  intro l
  induction l with
  | nil => intro _ p; rfl
  | cons a t ih =>
    intro hmem p
    obtain ⟨hk, hv, happ⟩ := examplePairs_facts a (hmem a (List.mem_cons_self a t))
    have hpt : pairTokens (a :: t) = a.1 :: a.2 :: pairTokens t := rfl
    have hstep : parseInstructionsAux (a.1 :: a.2 :: pairTokens t) p =
        parseInstructionsAux (a.2 :: pairTokens t) (stepPair p a) := by
      cases hq : pairTokens t with
      | nil => simp [parseInstructionsAux, hk, happ p]
      | cons b u => simp [parseInstructionsAux, hk, happ p]
    have hskip : parseInstructionsAux (a.2 :: pairTokens t) (stepPair p a) =
        parseInstructionsAux (pairTokens t) (stepPair p a) := by
      cases hq : pairTokens t with
      | nil => simp [parseInstructionsAux, hv]
      | cons b u => simp [parseInstructionsAux, hv]
    rw [hpt, hstep, hskip]
    exact ih (fun pr hpr => hmem pr (List.mem_cons_of_mem a hpr)) (stepPair p a)

/-- The step functions of any two example pairs commute. -/
lemma stepPair_comm :
    ∀ x ∈ examplePairs, ∀ y ∈ examplePairs, ∀ p,
      stepPair (stepPair p x) y = stepPair (stepPair p y) x := by
  intro x hx y hy p
  fin_cases hx <;> fin_cases hy <;> rfl

/-- C6: parsing the round-trip instruction string yields margin_upper 5,
margin_lower 10, colour_upper green, colour_lower red, majority 10, mode
colour_both, row offset 1, column offset 0; and scanning the eight
key/value pairs in any order yields the same configuration record. -/
theorem c6_parser_round_trip :
    parse_instructions exampleInstr = .ok exampleParams ∧
    ∀ l : List (String × String), l.Perm examplePairs →
      parseInstructionsAux (pairTokens l) emptyParams = .ok exampleParams := by
  constructor
  · decide
  · intro l hl
    rw [parseInstructionsAux_pairTokens l (fun pr hpr => hl.subset hpr) emptyParams]
    rw [hl.foldl_eq'
      (fun x hx y hy p => stepPair_comm x (hl.subset hx) y (hl.subset hy) p)
      emptyParams]
    rfl

/-- Witness for C6: scanning the pairs in reversed order still produces the
example configuration record. -/
theorem c6_parser_round_trip_witness :
    parseInstructionsAux (pairTokens examplePairs.reverse) emptyParams =
      .ok exampleParams :=
  c6_parser_round_trip.2 examplePairs.reverse (List.reverse_perm examplePairs)

/-- C5 (amended): when the parse itself raises (a non-numeric value token
after a numeric key, or a key with no following token), or when the parsed
record is missing any required option (a key absent from the string, or an
invalid mode token after `s`), the colourize operation returns that error
and the sink receives nothing, since parsing and option extraction precede
the per-sheet write loop.  Invalid colour tokens after `C`/`c` are not
errors: they are silently read as green (see the counterexample). -/
theorem c5_error_before_writes (instructions : String)
    (sheets_to_modify : List (String × Sheet)) (columns : List String)
    (multi_index : Bool) :
    (∀ e, parse_instructions instructions = .error e →
      colourize_columns sheets_to_modify columns instructions multi_index =
        .error e) ∧
    (∀ cfg, parse_instructions instructions = .ok cfg →
      (cfg.formatting_option = none ∨ cfg.margin_upper = none ∨
       cfg.margin_lower = none ∨ cfg.colour_upper = none ∨
       cfg.colour_lower = none ∨ cfg.majority_percentage = none ∨
       cfg.row_offset = none ∨ cfg.column_offset = none) →
      colourize_columns sheets_to_modify columns instructions multi_index =
        .error .keyError) := by
  constructor
  · intro e he
    simp [colourize_columns, he, Bind.bind, Except.bind]
  · intro cfg hok hnone
    simp only [colourize_columns, hok, Bind.bind, Except.bind]
    cases h1 : cfg.formatting_option with
    | none => simp [dictLookup]
    | some v1 =>
      cases h2 : cfg.margin_upper with
      | none => simp [dictLookup]
      | some v2 =>
        cases h3 : cfg.margin_lower with
        | none => simp [dictLookup]
        | some v3 =>
          cases h4 : cfg.colour_upper with
          | none => simp [dictLookup]
          | some v4 =>
            cases h5 : cfg.colour_lower with
            | none => simp [dictLookup]
            | some v5 =>
              cases h6 : cfg.majority_percentage with
              | none => simp [dictLookup]
              | some v6 =>
                cases h7 : cfg.row_offset with
                | none => simp [dictLookup]
                | some v7 =>
                  cases h8 : cfg.column_offset with
                  | none => simp [dictLookup]
                  | some v8 => simp_all

/-- Witness for C5 (amended): a non-numeric value after the numeric key `M`
raises ValueError, and an instruction string missing required keys raises
KeyError; both before any write. -/
theorem c5_error_before_writes_witness :
    colourize_columns [] [] "M x" false = .error .valueError ∧
    colourize_columns [] [] "M 1.0" false = .error .keyError :=
  ⟨(c5_error_before_writes "M x" [] [] false).1 .valueError (by decide),
   (c5_error_before_writes "M 1.0" [] [] false).2
     ⟨some 1, none, none, none, none, none, none, none⟩ (by decide)
     (Or.inl rfl)⟩

/-- Counterexample to C5 as stated: `badColourInstr` is malformed (the
token after `C` is `x`, not one of `r`, `g`), yet the colourize operation
raises no error and emits two directives to the sink, the upper one even
using green because the invalid token was silently coerced. -/
theorem c5_counterexample :
    colourize_columns [("S", exSheet)] ["A"] badColourInstr false =
      .ok [⟨"S", 0, 0, some 1, ⟨.lowerSlot, "#FFC7CE"⟩⟩,
           ⟨"S", 1, 0, some 2, ⟨.upperSlot, "#C6EFCE"⟩⟩] := by
  decide

/-- Dropping the NaN padding of a sorted series leaves the sorted values. -/
lemma filterMap_sort_values (s : List Cell) :
    (sort_values s).filterMap id = (s.filterMap id).insertionSort (· ≤ ·) := by
  unfold sort_values
  rw [List.filterMap_append]
  have h1 : ∀ l : List ℚ, (l.map some).filterMap id = l := by
    intro l
    induction l with
    | nil => rfl
    | cons a t ih => simp [ih]
  have h2 : ∀ n : ℕ, (List.replicate n (none : Cell)).filterMap id = [] := by
    intro n
    induction n with
    | zero => rfl
    | succ k ih => simp [List.replicate_succ, ih]
  rw [h1, h2, List.append_nil]

/-- Quantile of the pre-sorted series equals quantile of the series. -/
lemma seriesQuantile_sort_values (s : List Cell) (q : ℚ) :
    seriesQuantile (sort_values s) q = seriesQuantile s q := by
  unfold seriesQuantile
  rw [filterMap_sort_values,
    List.Sorted.insertionSort_eq (List.sorted_insertionSort _ _)]

/-- Minimum is invariant under permutation. -/
lemma min?_perm {l l' : List ℚ} (h : l.Perm l') : l.min? = l'.min? := by
  haveI anti : Std.Antisymm ((· : ℚ) ≤ ·) := ⟨fun h1 h2 => le_antisymm h1 h2⟩
  cases hl : l.min? with
  | none =>
    rw [List.min?_eq_none_iff] at hl
    subst hl
    rw [← h.nil_eq]
    rfl
  | some m =>
    rw [List.min?_eq_some_iff (fun a => le_refl a) (fun a b => min_choice a b)
      (fun a b c => le_min_iff)] at hl
    symm
    rw [List.min?_eq_some_iff (fun a => le_refl a) (fun a b => min_choice a b)
      (fun a b c => le_min_iff)]
    exact ⟨h.subset hl.1, fun b hb => hl.2 b (h.symm.subset hb)⟩

/-- Maximum is invariant under permutation. -/
lemma max?_perm {l l' : List ℚ} (h : l.Perm l') : l.max? = l'.max? := by
  haveI anti : Std.Antisymm ((· : ℚ) ≤ ·) := ⟨fun h1 h2 => le_antisymm h1 h2⟩
  cases hl : l.max? with
  | none =>
    rw [List.max?_eq_none_iff] at hl
    subst hl
    rw [← h.nil_eq]
    rfl
  | some m =>
    rw [List.max?_eq_some_iff (fun a => le_refl a) (fun a b => max_choice a b)
      (fun a b c => max_le_iff)] at hl
    symm
    rw [List.max?_eq_some_iff (fun a => le_refl a) (fun a b => max_choice a b)
      (fun a b c => max_le_iff)]
    exact ⟨h.subset hl.1, fun b hb => hl.2 b (h.symm.subset hb)⟩

/-- Folding min over the tail of a sorted list keeps the head. -/
lemma foldl_min_sorted :
    ∀ (t : List ℚ) (a : ℚ), List.Sorted (· ≤ ·) (a :: t) → t.foldl min a = a := by
  intro t
  induction t with
  | nil => intro a _; rfl
  | cons b u ih =>
    intro a hs
    have hab : a ≤ b := List.rel_of_sorted_cons hs b (List.mem_cons_self b u)
    have hsu : List.Sorted (· ≤ ·) (a :: u) := by
      have h1 := List.rel_of_sorted_cons hs
      have h2 := (List.sorted_cons.mp hs).2
      exact List.sorted_cons.mpr
        ⟨fun x hx => h1 x (List.mem_cons_of_mem b hx), (List.sorted_cons.mp h2).2⟩
    rw [List.foldl_cons, min_eq_left hab]
    exact ih a hsu

/-- Folding max over the tail of a sorted list lands on the last element. -/
lemma foldl_max_sorted :
    ∀ (t : List ℚ) (a : ℚ), List.Sorted (· ≤ ·) (a :: t) →
      t.foldl max a = (a :: t).getD t.length 0 := by
  intro t
  induction t with
  | nil => intro a _; rfl
  | cons b u ih =>
    intro a hs
    have hab : a ≤ b := List.rel_of_sorted_cons hs b (List.mem_cons_self b u)
    rw [List.foldl_cons, max_eq_right hab]
    exact ih b (List.sorted_cons.mp hs).2

/-- Minimum of a nonempty sorted list is its head. -/
lemma sorted_min?_getD (l : List ℚ) (hl : List.Sorted (· ≤ ·) l) (hne : l ≠ []) :
    l.min? = some (l.getD 0 0) := by
  cases l with
  | nil => exact absurd rfl hne
  | cons a t =>
    rw [List.min?_cons', foldl_min_sorted t a hl]
    rfl

/-- Maximum of a nonempty sorted list is its last element. -/
lemma sorted_max?_getD (l : List ℚ) (hl : List.Sorted (· ≤ ·) l) (hne : l ≠ []) :
    l.max? = some (l.getD (l.length - 1) 0) := by
  cases l with
  | nil => exact absurd rfl hne
  | cons a t =>
    rw [List.max?_cons', foldl_max_sorted t a hl]
    rfl

/-- Helper: the sorted non-NaN values of a series with at least one numeric
entry are nonempty. -/
lemma insertionSort_filterMap_ne_nil {s : List Cell}
    (hne : s.filterMap id ≠ []) :
    (s.filterMap id).insertionSort (· ≤ ·) ≠ [] := by
  intro hh
  have hp := List.perm_insertionSort (fun x1 x2 : ℚ => x1 ≤ x2) (s.filterMap id)
  rw [hh] at hp
  exact hne hp.nil_eq.symm

/-- Quantile at 0 is the column minimum. -/
lemma seriesQuantile_zero (s : List Cell) (hne : s.filterMap id ≠ []) :
    seriesQuantile s 0 = (s.filterMap id).min? := by
  have hsrtne := insertionSort_filterMap_ne_nil hne
  have hie : ((s.filterMap id).insertionSort (· ≤ ·)).isEmpty = false := by
    simpa [List.isEmpty_iff] using hsrtne
  unfold seriesQuantile
  rw [if_neg (by push_neg; constructor <;> norm_num)]
  simp only [hie, Bool.false_eq_true, if_false]
  norm_num
  rw [← min?_perm (List.perm_insertionSort (fun x1 x2 : ℚ => x1 ≤ x2) (s.filterMap id))]
  rw [sorted_min?_getD _ (List.sorted_insertionSort _ _) hsrtne]
  rw [List.getD_eq_getElem?_getD]

/-- Quantile at 1 is the column maximum. -/
lemma seriesQuantile_one (s : List Cell) (hne : s.filterMap id ≠ []) :
    seriesQuantile s 1 = (s.filterMap id).max? := by
  have hsrtne := insertionSort_filterMap_ne_nil hne
  have hie : ((s.filterMap id).insertionSort (· ≤ ·)).isEmpty = false := by
    simpa [List.isEmpty_iff] using hsrtne
  have hn : 1 ≤ ((s.filterMap id).insertionSort (· ≤ ·)).length :=
    List.length_pos.mpr hsrtne
  unfold seriesQuantile
  rw [if_neg (by push_neg; constructor <;> norm_num)]
  simp only [hie, Bool.false_eq_true, if_false]
  have hcast : (1 : ℚ) * ((((s.filterMap id).insertionSort (· ≤ ·)).length : ℚ) - 1) =
      (((((s.filterMap id).insertionSort (· ≤ ·)).length - 1 : ℕ)) : ℚ) := by
    rw [Nat.cast_sub hn]
    norm_num
  rw [hcast, Int.floor_natCast, Int.toNat_natCast, sub_self, zero_mul, add_zero]
  rw [← max?_perm (List.perm_insertionSort (fun x1 x2 : ℚ => x1 ≤ x2) (s.filterMap id))]
  rw [sorted_max?_getD _ (List.sorted_insertionSort _ _) hsrtne]

/-- The interpolation formula of the embedded quantile agrees with the
specification's integral-or-interpolate formulation, for a virtual index
within the list. -/
lemma interp_formula (l : List ℚ) (h : ℚ) (h0 : 0 ≤ h)
    (hle : h ≤ (l.length : ℚ) - 1) :
    l.getD (⌊h⌋).toNat 0 + (h - (((⌊h⌋).toNat : ℕ) : ℚ)) *
        (l.getD (min ((⌊h⌋).toNat + 1) (l.length - 1)) 0 - l.getD (⌊h⌋).toNat 0) =
      (if ⌈h⌉ = ⌊h⌋ then l.getD (⌊h⌋).toNat 0
       else ((⌈h⌉ : ℚ) - h) * l.getD (⌊h⌋).toNat 0 +
         (h - (⌊h⌋ : ℚ)) * l.getD (⌈h⌉).toNat 0) := by
  have hfl0 : 0 ≤ ⌊h⌋ := Int.floor_nonneg.mpr h0
  have hcast : (((⌊h⌋).toNat : ℕ) : ℚ) = ((⌊h⌋ : ℤ) : ℚ) := by
    exact_mod_cast congrArg (fun z : ℤ => (z : ℚ)) (Int.toNat_of_nonneg hfl0)
  by_cases hc : ⌈h⌉ = ⌊h⌋
  · rw [if_pos hc]
    have hh : h = ((⌊h⌋ : ℤ) : ℚ) := by
      refine le_antisymm ?_ (Int.floor_le h)
      calc h ≤ ((⌈h⌉ : ℤ) : ℚ) := Int.le_ceil h
        _ = ((⌊h⌋ : ℤ) : ℚ) := by rw [hc]
    rw [hcast, ← hh, sub_self, zero_mul, add_zero]
  · rw [if_neg hc]
    have hfc : ⌊h⌋ ≤ ⌈h⌉ := Int.floor_le_ceil h
    have hc1 := Int.ceil_le_floor_add_one h
    have hceil : ⌈h⌉ = ⌊h⌋ + 1 := by omega
    have hcl : ⌈h⌉ ≤ (l.length : ℤ) - 1 := by
      rw [Int.ceil_le]
      push_cast
      exact hle
    have hmin : min ((⌊h⌋).toNat + 1) (l.length - 1) = (⌊h⌋).toNat + 1 := by
      omega
    have hcnat : (⌈h⌉).toNat = (⌊h⌋).toNat + 1 := by omega
    rw [hmin, hcnat, hcast]
    have hcq : ((⌈h⌉ : ℤ) : ℚ) = ((⌊h⌋ : ℤ) : ℚ) + 1 := by
      exact_mod_cast congrArg (fun z : ℤ => (z : ℚ)) hceil
    rw [hcq]
    ring

/-- The embedded quantile agrees with the specification's
linear-interpolation quantile on the numeric entries, for quantile levels
in the unit interval. -/
lemma seriesQuantile_eq_spec (s : List Cell) (q : ℚ) (hq0 : 0 ≤ q)
    (hq1 : q ≤ 1) (hne : s.filterMap id ≠ []) :
    seriesQuantile s q = some (specLinearQuantile (s.filterMap id) q) := by
  have hsrtne := insertionSort_filterMap_ne_nil hne
  have hie : ((s.filterMap id).insertionSort (· ≤ ·)).isEmpty = false := by
    simpa [List.isEmpty_iff] using hsrtne
  have hn : 1 ≤ ((s.filterMap id).insertionSort (· ≤ ·)).length :=
    List.length_pos.mpr hsrtne
  have hn1 : (1 : ℚ) ≤ (((s.filterMap id).insertionSort (· ≤ ·)).length : ℚ) := by
    exact_mod_cast hn
  have h0 : 0 ≤ q * ((((s.filterMap id).insertionSort (· ≤ ·)).length : ℚ) - 1) :=
    mul_nonneg hq0 (by linarith)
  have hle : q * ((((s.filterMap id).insertionSort (· ≤ ·)).length : ℚ) - 1) ≤
      (((s.filterMap id).insertionSort (· ≤ ·)).length : ℚ) - 1 :=
    mul_le_of_le_one_left (by linarith) hq1
  unfold seriesQuantile specLinearQuantile
  rw [if_neg (by push_neg; exact ⟨not_lt.mp (by simp [hq0]), not_lt.mp (by simp [hq1])⟩)]
  simp only [hie, Bool.false_eq_true, if_false]
  exact congrArg some (interp_formula _ _ h0 hle)

/-- C2: for a column with at least one numeric value, `_calculate_bounds`
with percentages in `[0, 100]` returns the linear-interpolation quantile of
the column at `1 - upperPct/100` paired with the one at `lowerPct/100`; in
particular with both percentages 0 it returns the column maximum paired
with the column minimum (distinct values are not needed). -/
theorem c2_calculate_bounds (s : List Cell) (hne : s.filterMap id ≠ []) :
    (∀ upper_bound lower_bound : ℚ,
      0 ≤ upper_bound → upper_bound ≤ 100 → 0 ≤ lower_bound → lower_bound ≤ 100 →
      calculate_bounds s upper_bound lower_bound =
        (some (specLinearQuantile (s.filterMap id) (1 - upper_bound / 100)),
         some (specLinearQuantile (s.filterMap id) (lower_bound / 100)))) ∧
    calculate_bounds s 0 0 = ((s.filterMap id).max?, (s.filterMap id).min?) := by
  constructor
  · intro ub lb h1 h2 h3 h4
    simp only [calculate_bounds]
    rw [seriesQuantile_sort_values, seriesQuantile_sort_values,
      seriesQuantile_eq_spec s _ (by linarith) (by linarith) hne,
      seriesQuantile_eq_spec s _ (by linarith) (by linarith) hne]
  · simp only [calculate_bounds]
    have e1 : (1 : ℚ) - 0 / 100 = 1 := by norm_num
    have e2 : (0 : ℚ) / 100 = 0 := by norm_num
    rw [seriesQuantile_sort_values, seriesQuantile_sort_values, e1, e2,
      seriesQuantile_one s hne, seriesQuantile_zero s hne]

/-- Witness for C2 on the concrete column `[1, 2, 3]`: the bounds at
percentages (0, 0) are the maximum and the minimum. -/
theorem c2_calculate_bounds_witness :
    calculate_bounds [some 1, some 2, some 3] 0 0 = (some 3, some 1) := by
  rw [(c2_calculate_bounds [some 1, some 2, some 3] (by decide)).2]
  decide
